import Mathlib

/-!
Verification development for the permanent-magnet synchronous motor model in
`sim/physics/motors.cc`: torque limits (`CalcTorqueLimits`), electrical power
(`CalcMotorPower`), and inverter loss (`CalcMotorControllerLoss`).

The C++ doubles are modelled as real numbers; `fmin`/`fmax`/`fabs` become
`min`/`max`/`|·|`, the math-library functions become `Real.sqrt`,
`Real.arccos`, `Real.arctan`, `Real.sin`, `Real.cos`, and division is the
total real division of Lean (division by zero yields 0).  The constant
`M_PI` is modelled as the IEEE-754 double it actually is (`mPi` below), a
rational number strictly below the real `pi`; this matters for the
`±0.5 * M_PI` angle clamps, whose cosine in the compiled code is the small
positive number `cos(0.5 * M_PI) ≈ 6.12e-17`, not zero.  The `DCHECK`
non-saliency assertion is a debug assertion with no runtime effect and is
therefore not part of the functional model; claims that need non-saliency
state it as a hypothesis.
-/

/-- Constraint tag attached to each torque-limit bound
(`SimMotorLimit` enum used by `motors.cc`). -/
inductive SimMotorLimit where
  | kSimMotorLimitPhaseCurrent
  | kSimMotorLimitPower
  deriving DecidableEq

open SimMotorLimit

/-- Motor and drive parameters (`MotorParams`), with exactly the fields that
`motors.cc` reads.  `num_pole_pairs` is an `int32_t` in the source, modelled
as an integer and cast into the real arithmetic where used. -/
structure MotorParams where
  Ld : ℝ
  Lq : ℝ
  Rs : ℝ
  flux_linkage : ℝ
  phase_current_cmd_limit : ℝ
  num_pole_pairs : ℤ
  modulation_limit : ℝ
  iq_cmd_lower_limit : ℝ
  iq_cmd_upper_limit : ℝ
  omega_loss_coefficient_cubic : ℝ
  omega_loss_coefficient_sq : ℝ
  omega_loss_coefficient_lin : ℝ
  hysteresis_loss_coefficient : ℝ
  rds_on : ℝ
  specific_switching_loss : ℝ
  switching_frequency : ℝ
  fixed_loss_sq_coeff : ℝ
  fixed_loss_lin_coeff : ℝ

/-- Output record of `CalcTorqueLimits` (`TorqueLimits`). -/
structure TorqueLimits where
  lower_limit : ℝ
  upper_limit : ℝ
  lower_constraint : SimMotorLimit
  upper_constraint : SimMotorLimit

/-- `DBL_EPSILON` for IEEE-754 double precision. -/
noncomputable def dblEpsilon : ℝ := 1 / 2 ^ 52

/-- `M_PI` from `<math.h>`: the IEEE-754 double nearest to pi,
`884279719003555 * 2^-48 = 3.14159265358979311599796...`, which lies
strictly below the real `pi`.  In particular `0.5 * mPi < pi / 2`, so
`cos (0.5 * mPi) > 0` — the compiled code computes
`cos(0.5 * M_PI) ≈ +6.12e-17`, which makes the zero-speed phase-current
guards of `CalcTorqueLimits` fire. -/
noncomputable def mPi : ℝ := 884279719003555 / 2 ^ 48

/-- Modelled from the spec: the saturation helper used on the arccosine
argument is not among the given sources (it lives in the common math
utilities); the spec describes it as clamping the value into the closed
interval `[lo, hi]`. -/
noncomputable def Saturate (x lo hi : ℝ) : ℝ := min (max x lo) hi

/-- The clamp `if (voltage < 0.0) voltage = 0.0;` performed at the top of
both `CalcTorqueLimits` and `CalcMotorPower`. -/
noncomputable def clampV (v : ℝ) : ℝ := if v < 0 then 0 else v

/-- `vdq_max = voltage * (1.0 / sqrt(3.0)) * params.modulation_limit`,
applied to the clamped voltage. -/
noncomputable def vdqMax (voltage : ℝ) (p : MotorParams) : ℝ :=
  clampV voltage * (1 / Real.sqrt 3) * p.modulation_limit

/-- `omega_e = rotor_vel * npp`. -/
def omegaE (rotor_vel : ℝ) (p : MotorParams) : ℝ :=
  rotor_vel * (p.num_pole_pairs : ℝ)

/-- `z2 = Rs * Rs + L * L * omega_e * omega_e` where `L = params.Lq`. -/
def z2 (rotor_vel : ℝ) (p : MotorParams) : ℝ :=
  p.Rs * p.Rs + p.Lq * p.Lq * omegaE rotor_vel p * omegaE rotor_vel p

/-- `id_center = -omega_e * omega_e * L * lambda / z2`. -/
noncomputable def idCenter (rotor_vel : ℝ) (p : MotorParams) : ℝ :=
  -omegaE rotor_vel p * omegaE rotor_vel p * p.Lq * p.flux_linkage / z2 rotor_vel p

/-- `iq_center = -Rs * omega_e * lambda / z2`. -/
noncomputable def iqCenter (rotor_vel : ℝ) (p : MotorParams) : ℝ :=
  -p.Rs * omegaE rotor_vel p * p.flux_linkage / z2 rotor_vel p

/-- `iq_radius = vdq_max / sqrt(z2)`. -/
noncomputable def iqRadius (vdq_max rotor_vel : ℝ) (p : MotorParams) : ℝ :=
  vdq_max / Real.sqrt (z2 rotor_vel p)

/-- The raw arccosine argument `cos_idq` before saturation. -/
noncomputable def cosIdq (vdq_max rotor_vel : ℝ) (p : MotorParams) : ℝ :=
  (vdq_max * vdq_max -
      z2 rotor_vel p * p.phase_current_cmd_limit * p.phase_current_cmd_limit -
      p.flux_linkage * p.flux_linkage * omegaE rotor_vel p * omegaE rotor_vel p) /
    (2 * max |omegaE rotor_vel p| 1 * p.flux_linkage * p.phase_current_cmd_limit *
      Real.sqrt (z2 rotor_vel p))

/-- `cos_idq = Saturate(cos_idq, -1.0, 1.0)`. -/
noncomputable def cosIdqSat (vdq_max rotor_vel : ℝ) (p : MotorParams) : ℝ :=
  Saturate (cosIdq vdq_max rotor_vel p) (-1) 1

/-- `theta_delta = acos(cos_idq)` applied to the saturated argument. -/
noncomputable def thetaDelta (vdq_max rotor_vel : ℝ) (p : MotorParams) : ℝ :=
  Real.arccos (cosIdqSat vdq_max rotor_vel p)

/-- `theta_ref = fabs(omega_e) > DBL_EPSILON ? atan(Rs / (omega_e * L)) : 0.0`. -/
noncomputable def thetaRef (rotor_vel : ℝ) (p : MotorParams) : ℝ :=
  if dblEpsilon < |omegaE rotor_vel p| then
    Real.arctan (p.Rs / (omegaE rotor_vel p * p.Lq))
  else 0

/-- Candidate angle for the lower phase-current limit:
`theta = fmin(theta_ref - theta_delta, -0.5 * M_PI)`, with `M_PI` the
double constant `mPi` (strictly above `-pi/2` after negation and halving). -/
noncomputable def thetaLowerAngle (vdq_max rotor_vel : ℝ) (p : MotorParams) : ℝ :=
  min (thetaRef rotor_vel p - thetaDelta vdq_max rotor_vel p) (-0.5 * mPi)

/-- Candidate angle for the upper phase-current limit:
`theta = fmax(theta_ref + theta_delta, 0.5 * M_PI)`, with `M_PI` the
double constant `mPi` (strictly below `pi/2` after halving). -/
noncomputable def thetaUpperAngle (vdq_max rotor_vel : ℝ) (p : MotorParams) : ℝ :=
  max (thetaRef rotor_vel p + thetaDelta vdq_max rotor_vel p) (0.5 * mPi)

/-- Lower quadrature-current bound (value and tag) after seeding with the hard
command limit and applying the voltage/power-circle step. -/
noncomputable def iqLowerPow (vdq_max rotor_vel : ℝ) (p : MotorParams) : ℝ × SimMotorLimit :=
  if p.iq_cmd_lower_limit < iqCenter rotor_vel p - iqRadius vdq_max rotor_vel p then
    (iqCenter rotor_vel p - iqRadius vdq_max rotor_vel p, kSimMotorLimitPower)
  else (p.iq_cmd_lower_limit, kSimMotorLimitPhaseCurrent)

/-- Upper quadrature-current bound (value and tag) after seeding with the hard
command limit and applying the voltage/power-circle step. -/
noncomputable def iqUpperPow (vdq_max rotor_vel : ℝ) (p : MotorParams) : ℝ × SimMotorLimit :=
  if p.iq_cmd_upper_limit > iqCenter rotor_vel p + iqRadius vdq_max rotor_vel p then
    (iqCenter rotor_vel p + iqRadius vdq_max rotor_vel p, kSimMotorLimitPower)
  else (p.iq_cmd_upper_limit, kSimMotorLimitPhaseCurrent)

/-- Lower quadrature-current bound after the guarded phase-current step
(`id_center < i_phase_lim * cos(theta) && i_phase_lim * sin(theta) > lower`). -/
noncomputable def iqLowerFinal (vdq_max rotor_vel : ℝ) (p : MotorParams) : ℝ × SimMotorLimit :=
  if idCenter rotor_vel p <
        p.phase_current_cmd_limit * Real.cos (thetaLowerAngle vdq_max rotor_vel p) ∧
      p.phase_current_cmd_limit * Real.sin (thetaLowerAngle vdq_max rotor_vel p) >
        (iqLowerPow vdq_max rotor_vel p).1 then
    (p.phase_current_cmd_limit * Real.sin (thetaLowerAngle vdq_max rotor_vel p),
      kSimMotorLimitPhaseCurrent)
  else iqLowerPow vdq_max rotor_vel p

/-- Upper quadrature-current bound after the guarded phase-current step
(`id_center < i_phase_lim * cos(theta) && i_phase_lim * sin(theta) < upper`). -/
noncomputable def iqUpperFinal (vdq_max rotor_vel : ℝ) (p : MotorParams) : ℝ × SimMotorLimit :=
  if idCenter rotor_vel p <
        p.phase_current_cmd_limit * Real.cos (thetaUpperAngle vdq_max rotor_vel p) ∧
      p.phase_current_cmd_limit * Real.sin (thetaUpperAngle vdq_max rotor_vel p) <
        (iqUpperPow vdq_max rotor_vel p).1 then
    (p.phase_current_cmd_limit * Real.sin (thetaUpperAngle vdq_max rotor_vel p),
      kSimMotorLimitPhaseCurrent)
  else iqUpperPow vdq_max rotor_vel p

/-- `CalcTorqueLimits(voltage, rotor_vel, params)`: final torque bounds
`1.5 * npp * lambda * iq` with their constraint tags. -/
noncomputable def CalcTorqueLimits (voltage rotor_vel : ℝ) (p : MotorParams) : TorqueLimits :=
  { lower_limit := 1.5 * (p.num_pole_pairs : ℝ) * p.flux_linkage *
      (iqLowerFinal (vdqMax voltage p) rotor_vel p).1
    upper_limit := 1.5 * (p.num_pole_pairs : ℝ) * p.flux_linkage *
      (iqUpperFinal (vdqMax voltage p) rotor_vel p).1
    lower_constraint := (iqLowerFinal (vdqMax voltage p) rotor_vel p).2
    upper_constraint := (iqUpperFinal (vdqMax voltage p) rotor_vel p).2 }

/-- The C++ expression `-3 / 2` that scales both the resistive loss and the
conduction loss.  Both operands are integer literals, so this is integer
division truncating toward zero. -/
noncomputable def cppNeg3Div2 : ℝ := ((Int.tdiv (-3) 2 : ℤ) : ℝ)

/-- `iq = torque / (1.5 * npp * lambda)` in `CalcMotorPower`. -/
noncomputable def iqOfTorque (torque : ℝ) (p : MotorParams) : ℝ :=
  torque / (1.5 * (p.num_pole_pairs : ℝ) * p.flux_linkage)

/-- The squared peak phase current computed by `CalcMotorPower`: all q-axis
current, plus the d-axis contribution when the operating point is unreachable
(`fabs(iq_height) > iq_radius`, nearest-point fallback) or when the
minimum-current d-axis companion is negative (flux weakening). -/
noncomputable def peakPhaseCurrentSq (vdq_max torque rotor_vel : ℝ) (p : MotorParams) : ℝ :=
  let iq := iqOfTorque torque p
  let iq_height := iq - iqCenter rotor_vel p
  if iqRadius vdq_max rotor_vel p < |iq_height| then
    iq * iq + idCenter rotor_vel p * idCenter rotor_vel p
  else
    let id := idCenter rotor_vel p +
      Real.sqrt (iqRadius vdq_max rotor_vel p * iqRadius vdq_max rotor_vel p -
        iq_height * iq_height)
    if id < 0 then iq * iq + id * id else iq * iq

/-- `conduction_loss = -3 / 2 * peak_phase_current_sq * params.rds_on`
(note the integer division). -/
noncomputable def conductionLoss (peak_phase_current_sq : ℝ) (p : MotorParams) : ℝ :=
  cppNeg3Div2 * peak_phase_current_sq * p.rds_on

/-- `variable_switching_loss_per_cycle
      = -(3.0 * 2.0 / M_PI * voltage * sqrt(peak_phase_current_sq)
          * params.specific_switching_loss)`. -/
noncomputable def variableSwitchingLossPerCycle
    (voltage peak_phase_current_sq : ℝ) (p : MotorParams) : ℝ :=
  -(3 * 2 / mPi * voltage * Real.sqrt peak_phase_current_sq *
    p.specific_switching_loss)

/-- `fixed_switching_loss_per_cycle
      = -3.0 * (fixed_loss_sq_coeff * voltage + fixed_loss_lin_coeff) * voltage`. -/
noncomputable def fixedSwitchingLossPerCycle (voltage : ℝ) (p : MotorParams) : ℝ :=
  -3 * (p.fixed_loss_sq_coeff * voltage + p.fixed_loss_lin_coeff) * voltage

/-- `CalcMotorControllerLoss(voltage, peak_phase_current_sq, params)`.
Note: this function performs no clamp of a negative voltage argument. -/
noncomputable def CalcMotorControllerLoss
    (voltage peak_phase_current_sq : ℝ) (p : MotorParams) : ℝ :=
  conductionLoss peak_phase_current_sq p +
    p.switching_frequency *
      (variableSwitchingLossPerCycle voltage peak_phase_current_sq p +
        fixedSwitchingLossPerCycle voltage p)

/-- `resistive_loss = -3 / 2 * peak_phase_current_sq * Rs`
(note the integer division). -/
noncomputable def resistiveLoss (peak_phase_current_sq : ℝ) (p : MotorParams) : ℝ :=
  cppNeg3Div2 * peak_phase_current_sq * p.Rs

/-- `speed_loss = -(p0 * v * v + p1 * v + p2) * v` with the cubic, square,
linear omega-loss coefficients. -/
noncomputable def speedLoss (rotor_vel : ℝ) (p : MotorParams) : ℝ :=
  -(p.omega_loss_coefficient_cubic * rotor_vel * rotor_vel +
      p.omega_loss_coefficient_sq * rotor_vel +
      p.omega_loss_coefficient_lin) * rotor_vel

/-- `hysteresis_loss = -0.5 * hysteresis_loss_coefficient
      * peak_phase_current_sq * rotor_vel * rotor_vel`. -/
noncomputable def hysteresisLoss
    (peak_phase_current_sq rotor_vel : ℝ) (p : MotorParams) : ℝ :=
  -0.5 * p.hysteresis_loss_coefficient * peak_phase_current_sq *
    rotor_vel * rotor_vel

/-- `CalcMotorPower(voltage, torque, rotor_vel, params)`: mechanical power
plus all loss terms; the controller loss is invoked on the clamped voltage. -/
noncomputable def CalcMotorPower (voltage torque rotor_vel : ℝ) (p : MotorParams) : ℝ :=
  -torque * rotor_vel +
    resistiveLoss (peakPhaseCurrentSq (vdqMax voltage p) torque rotor_vel p) p +
    speedLoss rotor_vel p +
    hysteresisLoss (peakPhaseCurrentSq (vdqMax voltage p) torque rotor_vel p) rotor_vel p +
    CalcMotorControllerLoss (clampV voltage)
      (peakPhaseCurrentSq (vdqMax voltage p) torque rotor_vel p) p

/-! ### Basic evaluation lemmas -/

lemma cppNeg3Div2_eq : cppNeg3Div2 = -1 := by
  have h : Int.tdiv (-3) 2 = -1 := by decide
  simp [cppNeg3Div2, h]

lemma clampV_of_neg {v : ℝ} (h : v < 0) : clampV v = 0 := by
  simp [clampV, h]

lemma clampV_zero : clampV 0 = 0 := by
  simp [clampV]

lemma clampV_nonneg (v : ℝ) : 0 ≤ clampV v := by
  unfold clampV
  split_ifs with h
  · exact le_refl 0
  · exact le_of_not_lt h

lemma clampV_mono {a b : ℝ} (h : a ≤ b) : clampV a ≤ clampV b := by
  unfold clampV
  split_ifs with h1 h2 <;> linarith

lemma dblEpsilon_pos : 0 < dblEpsilon := by
  unfold dblEpsilon
  positivity

lemma omegaE_zero (p : MotorParams) : omegaE 0 p = 0 := zero_mul _

lemma idCenter_zero (p : MotorParams) : idCenter 0 p = 0 := by
  simp [idCenter, omegaE_zero]

lemma iqCenter_zero (p : MotorParams) : iqCenter 0 p = 0 := by
  simp [iqCenter, omegaE_zero]

lemma thetaRef_zero (p : MotorParams) : thetaRef 0 p = 0 := by
  have h : ¬ dblEpsilon < |omegaE 0 p| := by
    rw [omegaE_zero]
    simp
    exact le_of_lt dblEpsilon_pos
  simp [thetaRef, h]

lemma thetaDelta_nonneg (vdq_max rotor_vel : ℝ) (p : MotorParams) :
    0 ≤ thetaDelta vdq_max rotor_vel p :=
  Real.arccos_nonneg _

lemma thetaDelta_le_pi (vdq_max rotor_vel : ℝ) (p : MotorParams) :
    thetaDelta vdq_max rotor_vel p ≤ Real.pi :=
  Real.arccos_le_pi _

lemma vdqMax_zero (p : MotorParams) : vdqMax 0 p = 0 := by
  simp [vdqMax, clampV_zero]

lemma z2_zero_vel (p : MotorParams) : z2 0 p = p.Rs * p.Rs := by
  simp [z2, omegaE_zero]

lemma mPi_pos : 0 < mPi := by norm_num [mPi]

lemma mPi_lt_pi : mPi < Real.pi :=
  lt_trans (by norm_num [mPi]) Real.pi_gt_d20

lemma half_mPi_pos : 0 < 0.5 * mPi := by
  have := mPi_pos
  linarith

lemma half_mPi_lt_half_pi : 0.5 * mPi < Real.pi / 2 := by
  have := mPi_lt_pi
  linarith

lemma half_mPi_le_pi : 0.5 * mPi ≤ Real.pi := by
  have h1 := mPi_lt_pi
  have h2 := Real.pi_pos
  linarith

/-- The cosine of the clamp angle `0.5 * M_PI` is strictly positive: the
double `M_PI` falls short of pi, and the compiled code indeed computes
`cos(0.5 * M_PI) ≈ +6.12e-17 > 0`. -/
lemma cos_half_mPi_pos : 0 < Real.cos (0.5 * mPi) :=
  Real.cos_pos_of_mem_Ioo ⟨by linarith [Real.pi_pos, half_mPi_pos], half_mPi_lt_half_pi⟩

/-- At zero rotor speed the upper candidate angle is
`max(theta_delta, 0.5 * M_PI)`. -/
lemma thetaUpperAngle_zero_vel (vdq_max : ℝ) (p : MotorParams) :
    thetaUpperAngle vdq_max 0 p = max (thetaDelta vdq_max 0 p) (0.5 * mPi) := by
  unfold thetaUpperAngle
  rw [thetaRef_zero, zero_add]

/-- At zero rotor speed the lower candidate angle is the negation of the
upper one. -/
lemma thetaLowerAngle_zero_vel (vdq_max : ℝ) (p : MotorParams) :
    thetaLowerAngle vdq_max 0 p = -max (thetaDelta vdq_max 0 p) (0.5 * mPi) := by
  unfold thetaLowerAngle
  rw [thetaRef_zero, zero_sub, show (-0.5 * mPi : ℝ) = -(0.5 * mPi) by ring,
    min_neg_neg]

lemma phiZero_le_pi (vdq_max : ℝ) (p : MotorParams) :
    max (thetaDelta vdq_max 0 p) (0.5 * mPi) ≤ Real.pi :=
  max_le (thetaDelta_le_pi _ _ _) half_mPi_le_pi

lemma sin_phiZero_nonneg (vdq_max : ℝ) (p : MotorParams) :
    0 ≤ Real.sin (max (thetaDelta vdq_max 0 p) (0.5 * mPi)) :=
  Real.sin_nonneg_of_nonneg_of_le_pi
    (le_trans half_mPi_pos.le (le_max_right _ _)) (phiZero_le_pi _ _)

lemma Saturate_pos_of_pos {x : ℝ} (h : 0 < x) : 0 < Saturate x (-1) 1 :=
  lt_min (lt_of_lt_of_le h (le_max_left _ _)) one_pos

lemma nonpos_of_Saturate_nonpos {x : ℝ} (h : Saturate x (-1) 1 ≤ 0) : x ≤ 0 := by
  by_contra hx
  push_neg at hx
  exact absurd h (not_le.mpr (Saturate_pos_of_pos hx))

/-- At zero rotor speed `cos_idq` reduces to
`(vdq_max^2 - Rs^2 ip^2) / (2 lambda ip Rs)`. -/
lemma cosIdq_zero_vel (vdq_max : ℝ) (p : MotorParams) (hRs : 0 ≤ p.Rs) :
    cosIdq vdq_max 0 p =
      (vdq_max * vdq_max -
          p.Rs * p.Rs * p.phase_current_cmd_limit * p.phase_current_cmd_limit) /
        (2 * p.flux_linkage * p.phase_current_cmd_limit * p.Rs) := by
  unfold cosIdq
  rw [omegaE_zero, z2_zero_vel, Real.sqrt_mul_self hRs, abs_zero,
    max_eq_right zero_le_one]
  ring_nf

/-- At zero rotor speed the circle radius is `vdq_max / Rs`. -/
lemma iqRadius_zero_vel (vdq_max : ℝ) (p : MotorParams) (hRs : 0 ≤ p.Rs) :
    iqRadius vdq_max 0 p = vdq_max / p.Rs := by
  unfold iqRadius
  rw [z2_zero_vel, Real.sqrt_mul_self hRs]

lemma iqLowerPow_zero_vel (vdq_max : ℝ) (p : MotorParams) :
    iqLowerPow vdq_max 0 p =
      if p.iq_cmd_lower_limit < -iqRadius vdq_max 0 p then
        (-iqRadius vdq_max 0 p, kSimMotorLimitPower)
      else (p.iq_cmd_lower_limit, kSimMotorLimitPhaseCurrent) := by
  unfold iqLowerPow
  rw [iqCenter_zero, zero_sub]

lemma iqUpperPow_zero_vel (vdq_max : ℝ) (p : MotorParams) :
    iqUpperPow vdq_max 0 p =
      if p.iq_cmd_upper_limit > iqRadius vdq_max 0 p then
        (iqRadius vdq_max 0 p, kSimMotorLimitPower)
      else (p.iq_cmd_upper_limit, kSimMotorLimitPhaseCurrent) := by
  unfold iqUpperPow
  rw [iqCenter_zero, zero_add]

/-- At zero rotor speed, if the saturated arccosine argument is nonpositive
then the circle radius is at most the phase-current limit. -/
lemma iqRadius_le_ip_of_sat_nonpos (vdq_max : ℝ) (p : MotorParams)
    (hRs : 0 < p.Rs) (hlam : 0 < p.flux_linkage)
    (hip : 0 < p.phase_current_cmd_limit)
    (hsat : cosIdqSat vdq_max 0 p ≤ 0) :
    iqRadius vdq_max 0 p ≤ p.phase_current_cmd_limit := by
  have hx : cosIdq vdq_max 0 p ≤ 0 := nonpos_of_Saturate_nonpos hsat
  rw [cosIdq_zero_vel _ _ hRs.le] at hx
  have hD : (0 : ℝ) < 2 * p.flux_linkage * p.phase_current_cmd_limit * p.Rs := by
    positivity
  have hnum : vdq_max * vdq_max -
      p.Rs * p.Rs * p.phase_current_cmd_limit * p.phase_current_cmd_limit ≤ 0 := by
    by_contra hq
    push_neg at hq
    exact absurd hx (not_le.mpr (div_pos hq hD))
  rw [iqRadius_zero_vel _ _ hRs.le, div_le_iff hRs]
  by_contra h
  push_neg at h
  have hsq := mul_self_lt_mul_self
    (mul_nonneg hip.le hRs.le) h
  nlinarith

/-- At zero rotor speed, if the circle radius exceeds the phase-current limit
then the saturated arccosine argument is strictly positive. -/
lemma sat_pos_of_ip_lt_iqRadius (vdq_max : ℝ) (p : MotorParams)
    (hRs : 0 < p.Rs) (hlam : 0 < p.flux_linkage)
    (hip : 0 < p.phase_current_cmd_limit)
    (hr : p.phase_current_cmd_limit < iqRadius vdq_max 0 p) :
    0 < cosIdqSat vdq_max 0 p := by
  rw [iqRadius_zero_vel _ _ hRs.le, lt_div_iff hRs] at hr
  apply Saturate_pos_of_pos
  rw [cosIdq_zero_vel _ _ hRs.le]
  apply div_pos _ (by positivity)
  have hsq := mul_self_lt_mul_self
    (mul_nonneg hip.le hRs.le) hr
  nlinarith

/-- At zero rotor speed, a strictly positive saturated arccosine argument
puts the clamped candidate angle strictly inside `(-pi/2, pi/2)`, where the
cosine is positive — so the phase-current guards fire. -/
lemma cos_phiZero_pos_of_sat_pos (vdq_max : ℝ) (p : MotorParams)
    (hsat : 0 < cosIdqSat vdq_max 0 p) :
    0 < Real.cos (max (thetaDelta vdq_max 0 p) (0.5 * mPi)) := by
  have hδ : thetaDelta vdq_max 0 p < Real.pi / 2 :=
    Real.arccos_lt_pi_div_two.mpr hsat
  exact Real.cos_pos_of_mem_Ioo
    ⟨lt_of_lt_of_le (by linarith [Real.pi_pos, half_mPi_pos]) (le_max_right _ _),
      max_lt hδ half_mPi_lt_half_pi⟩

/-- Contrapositive: a nonpositive cosine at the zero-speed candidate angle
forces a nonpositive saturated arccosine argument. -/
lemma sat_nonpos_of_cos_phiZero_nonpos (vdq_max : ℝ) (p : MotorParams)
    (hcos : Real.cos (max (thetaDelta vdq_max 0 p) (0.5 * mPi)) ≤ 0) :
    cosIdqSat vdq_max 0 p ≤ 0 := by
  by_contra h
  push_neg at h
  exact absurd hcos (not_le.mpr (cos_phiZero_pos_of_sat_pos vdq_max p h))

/-- When the arccosine argument saturates at `-1` (tiny voltage circle), the
candidate angles are `±pi` and both zero-speed phase-current guards are
false, so the phase step leaves the power-step bounds untouched. -/
lemma phase_steps_off_of_sat_bottom (vdq_max : ℝ) (p : MotorParams)
    (hip : 0 ≤ p.phase_current_cmd_limit)
    (hsat : cosIdqSat vdq_max 0 p = -1) :
    iqLowerFinal vdq_max 0 p = iqLowerPow vdq_max 0 p ∧
    iqUpperFinal vdq_max 0 p = iqUpperPow vdq_max 0 p := by
  have hδ : thetaDelta vdq_max 0 p = Real.pi := by
    unfold thetaDelta
    rw [hsat, Real.arccos_neg_one]
  have hφ : max (thetaDelta vdq_max 0 p) (0.5 * mPi) = Real.pi := by
    rw [hδ]
    exact max_eq_left half_mPi_le_pi
  constructor
  · unfold iqLowerFinal
    rw [if_neg]
    rintro ⟨h1, -⟩
    rw [thetaLowerAngle_zero_vel, hφ, idCenter_zero, Real.cos_neg, Real.cos_pi] at h1
    nlinarith
  · unfold iqUpperFinal
    rw [if_neg]
    rintro ⟨h1, -⟩
    rw [thetaUpperAngle_zero_vel, hφ, idCenter_zero, Real.cos_pi] at h1
    nlinarith

/-! ### Concrete parameter sets used by witnesses and counterexamples -/

/-- All-zero parameter set (trivially non-salient). -/
def paramsZero : MotorParams :=
  { Ld := 0, Lq := 0, Rs := 0, flux_linkage := 0, phase_current_cmd_limit := 0
    num_pole_pairs := 0, modulation_limit := 0
    iq_cmd_lower_limit := 0, iq_cmd_upper_limit := 0
    omega_loss_coefficient_cubic := 0, omega_loss_coefficient_sq := 0
    omega_loss_coefficient_lin := 0, hysteresis_loss_coefficient := 0
    rds_on := 0, specific_switching_loss := 0, switching_frequency := 0
    fixed_loss_sq_coeff := 0, fixed_loss_lin_coeff := 0 }

/-- Parameter set with unit stator resistance and unit drive resistance. -/
def paramsUnitR : MotorParams :=
  { paramsZero with Rs := 1, rds_on := 1 }

/-- Non-salient parameter set: `Rs = 1`, `L = 0`, `lambda = 1`, one pole pair,
`modulation_limit = sqrt 3` (so that `vdq_max` equals the clamped voltage),
phase-current limit 1, hard quadrature command band `[-5, 5]`. -/
noncomputable def paramsBandFive : MotorParams :=
  { paramsZero with
    Rs := 1, flux_linkage := 1, phase_current_cmd_limit := 1,
    num_pole_pairs := 1, modulation_limit := Real.sqrt 3,
    iq_cmd_lower_limit := -5, iq_cmd_upper_limit := 5 }

/-- Non-salient parameter set with phase-current limit 4 and the hard
quadrature command band degenerate at 10. -/
noncomputable def paramsBandTen : MotorParams :=
  { paramsZero with
    Rs := 1, flux_linkage := 1, phase_current_cmd_limit := 4,
    num_pole_pairs := 1, modulation_limit := Real.sqrt 3,
    iq_cmd_lower_limit := 10, iq_cmd_upper_limit := 10 }

/-- Non-salient parameter set with phase-current limit 4 and hard quadrature
command band `[-10, 10]`. -/
noncomputable def paramsWideBand : MotorParams :=
  { paramsZero with
    Rs := 1, flux_linkage := 1, phase_current_cmd_limit := 4,
    num_pole_pairs := 1, modulation_limit := Real.sqrt 3,
    iq_cmd_lower_limit := -10, iq_cmd_upper_limit := 10 }

/-- Controller parameter set: unit switching frequency, unit specific
switching loss, unit linear fixed-loss coefficient, everything else zero. -/
def paramsSwitching : MotorParams :=
  { paramsZero with
    specific_switching_loss := 1, switching_frequency := 1,
    fixed_loss_lin_coeff := 1 }

/-! ### More evaluation lemmas -/

/-- With `torque = 0` and `rotor_speed = 0` the inferred squared peak phase
current vanishes in every branch of the reachability case split. -/
lemma peakPhaseCurrentSq_zero_torque_zero_vel (vdq_max : ℝ) (p : MotorParams) :
    peakPhaseCurrentSq vdq_max 0 0 p = 0 := by
  unfold peakPhaseCurrentSq
  simp only [iqOfTorque, zero_div, iqCenter_zero, idCenter_zero, sub_zero, zero_sub,
    abs_neg, abs_zero, mul_zero, zero_mul, zero_add, add_zero, neg_zero]
  split_ifs with h1 h2
  · ring
  · have hs : 0 ≤ Real.sqrt (iqRadius vdq_max 0 p * iqRadius vdq_max 0 p) :=
      Real.sqrt_nonneg _
    linarith
  · ring

/-! ### Claims -/

/-- Claim C1: the spec says both the resistive loss in `CalcMotorPower` and
the conduction loss in `CalcMotorControllerLoss` scale the squared peak phase
current by `-1.5`.  The source writes `-3 / 2`, an integer division that
truncates to `-1`, so the code actually scales by `-1` in both places; at
`peak_phase_current_sq = 1` with `Rs = rds_on = 1` both losses evaluate to
`-1`, not `-1.5`. -/
theorem C1_loss_factor_is_minus_one :
    (∀ (x : ℝ) (p : MotorParams),
        resistiveLoss x p = -1 * x * p.Rs ∧ conductionLoss x p = -1 * x * p.rds_on) ∧
    resistiveLoss 1 paramsUnitR = -1 ∧ conductionLoss 1 paramsUnitR = -1 ∧
    resistiveLoss 1 paramsUnitR ≠ -1.5 * 1 * paramsUnitR.Rs := by
  refine ⟨fun x p => ⟨by rw [resistiveLoss, cppNeg3Div2_eq],
    by rw [conductionLoss, cppNeg3Div2_eq]⟩, ?_, ?_, ?_⟩
  · simp [resistiveLoss, cppNeg3Div2_eq, paramsUnitR, paramsZero]
  · simp [conductionLoss, cppNeg3Div2_eq, paramsUnitR, paramsZero]
  · simp only [resistiveLoss, cppNeg3Div2_eq, paramsUnitR, paramsZero]
    norm_num

/-- Claim C4: at `torque = 0` and `rotor_speed = 0` every current-dependent
and speed-dependent loss term of `CalcMotorPower` vanishes and the result is
exactly the switching frequency times the fixed switching loss per cycle of
`CalcMotorControllerLoss`, evaluated at the clamped voltage. -/
theorem C4_power_at_zero_torque_zero_speed (voltage : ℝ) (p : MotorParams) :
    CalcMotorPower voltage 0 0 p =
      p.switching_frequency * fixedSwitchingLossPerCycle (clampV voltage) p := by
  unfold CalcMotorPower
  rw [peakPhaseCurrentSq_zero_torque_zero_vel]
  unfold resistiveLoss speedLoss hysteresisLoss CalcMotorControllerLoss
    conductionLoss variableSwitchingLossPerCycle
  rw [Real.sqrt_zero]
  ring

/-- Claim C5: a negative voltage is clamped to zero at the top of both
`CalcTorqueLimits` and `CalcMotorPower`, so for any `v < 0` both functions
return exactly their value at voltage `0`. -/
theorem C5_negative_voltage_equals_zero_voltage
    (v torque rotor_vel : ℝ) (p : MotorParams) (hv : v < 0) :
    CalcTorqueLimits v rotor_vel p = CalcTorqueLimits 0 rotor_vel p ∧
    CalcMotorPower v torque rotor_vel p = CalcMotorPower 0 torque rotor_vel p := by
  have hc : clampV v = clampV 0 := by rw [clampV_of_neg hv, clampV_zero]
  have hvdq : vdqMax v p = vdqMax 0 p := by unfold vdqMax; rw [hc]
  constructor
  · unfold CalcTorqueLimits
    rw [hvdq]
  · unfold CalcMotorPower
    rw [hvdq, hc]

/-- Witness for C5 at `v = -1`. -/
theorem C5_witness : (-1 : ℝ) < 0 ∧
    CalcTorqueLimits (-1) 0 paramsZero = CalcTorqueLimits 0 0 paramsZero ∧
    CalcMotorPower (-1) 0 0 paramsZero = CalcMotorPower 0 0 0 paramsZero :=
  ⟨by norm_num, C5_negative_voltage_equals_zero_voltage (-1) 0 0 paramsZero (by norm_num)⟩

/-- Claim C8: the argument handed to `acos` is the saturated `cos_idq`, which
always lies in `[-1, 1]`; and whenever `|omega_e|` is at or below machine
epsilon the reference angle is set to `0` instead of evaluating
`atan(Rs / (omega_e * L))`. -/
theorem C8_acos_domain_and_thetaRef_guard (vdq_max rotor_vel : ℝ) (p : MotorParams) :
    (-1 ≤ cosIdqSat vdq_max rotor_vel p ∧ cosIdqSat vdq_max rotor_vel p ≤ 1) ∧
    (|omegaE rotor_vel p| ≤ dblEpsilon → thetaRef rotor_vel p = 0) := by
  refine ⟨⟨?_, ?_⟩, ?_⟩
  · exact le_min (le_max_right _ _) (by norm_num)
  · exact min_le_right _ _
  · intro h
    unfold thetaRef
    rw [if_neg (not_lt.mpr h)]

/-- Witness for C8 at zero electrical speed. -/
theorem C8_witness :
    thetaRef 0 paramsZero = 0 ∧
    (-1 ≤ cosIdqSat 0 0 paramsZero ∧ cosIdqSat 0 0 paramsZero ≤ 1) :=
  ⟨(C8_acos_domain_and_thetaRef_guard 0 0 paramsZero).2
      (by rw [omegaE_zero, abs_zero]; exact le_of_lt dblEpsilon_pos),
    (C8_acos_domain_and_thetaRef_guard 0 0 paramsZero).1⟩

/-- Claim C9: when `Rs = 0` and `rotor_speed = 0` the squared impedance `z2`
(the unconditional divisor of `id_center`, `iq_center`, `cos_idq` and, through
its square root, of `iq_radius`, in both `CalcTorqueLimits` and
`CalcMotorPower`) is exactly zero, so well-definedness of those divisions
needs `Rs ≠ 0` or a nonzero electrical speed — a precondition no code path
checks. -/
theorem C9_z2_vanishes_at_zero_Rs_zero_speed
    (rotor_vel : ℝ) (p : MotorParams) (hRs : p.Rs = 0) (hvel : rotor_vel = 0) :
    z2 rotor_vel p = 0 ∧ Real.sqrt (z2 rotor_vel p) = 0 := by
  subst hvel
  have h : z2 0 p = 0 := by rw [z2_zero_vel, hRs, mul_zero]
  exact ⟨h, by rw [h, Real.sqrt_zero]⟩

/-- Witness for C9 on the all-zero parameter set. -/
theorem C9_witness :
    paramsZero.Rs = 0 ∧ z2 0 paramsZero = 0 ∧ Real.sqrt (z2 0 paramsZero) = 0 :=
  ⟨rfl, C9_z2_vanishes_at_zero_Rs_zero_speed 0 paramsZero rfl rfl⟩

/-- Claim C10: `CalcMotorControllerLoss` applies its formulas to the signed
voltage as given (no clamp): at `voltage = -1`, `peak_phase_current_sq = 1`
on `paramsSwitching` the result is `6 / M_PI + 3 > 0`, different from the value
`0` at `voltage = 0`, and positive — violating the loss-is-negative
convention. -/
theorem C10_no_clamp_in_controller_loss :
    CalcMotorControllerLoss (-1) 1 paramsSwitching ≠
      CalcMotorControllerLoss 0 1 paramsSwitching ∧
    0 < CalcMotorControllerLoss (-1) 1 paramsSwitching := by
  have hneg : CalcMotorControllerLoss (-1) 1 paramsSwitching = 3 * 2 / mPi + 3 := by
    unfold CalcMotorControllerLoss conductionLoss variableSwitchingLossPerCycle
      fixedSwitchingLossPerCycle
    rw [cppNeg3Div2_eq]
    simp [paramsSwitching, paramsZero]
  have hzero : CalcMotorControllerLoss 0 1 paramsSwitching = 0 := by
    unfold CalcMotorControllerLoss conductionLoss variableSwitchingLossPerCycle
      fixedSwitchingLossPerCycle
    rw [cppNeg3Div2_eq]
    simp [paramsSwitching, paramsZero]
  have hposv : 0 < 3 * 2 / mPi + 3 := by
    have h6 : (0 : ℝ) < 3 * 2 / mPi := div_pos (by norm_num) mPi_pos
    linarith
  constructor
  · rw [hneg, hzero]
    exact ne_of_gt hposv
  · rw [hneg]
    exact hposv

/-! ### Helpers for the voltage circle and the constraint tags -/

lemma vdqMax_sqrt3 (v : ℝ) (hv : 0 ≤ v) (p : MotorParams)
    (hmod : p.modulation_limit = Real.sqrt 3) : vdqMax v p = v := by
  have h3 : Real.sqrt 3 ≠ 0 := ne_of_gt (Real.sqrt_pos.mpr (by norm_num))
  unfold vdqMax clampV
  rw [if_neg (not_lt.mpr hv), hmod, mul_assoc, one_div, inv_mul_cancel₀ h3, mul_one]

lemma iqRadius_zero_voltage (rotor_vel : ℝ) (p : MotorParams) :
    iqRadius (vdqMax 0 p) rotor_vel p = 0 := by
  rw [vdqMax_zero]
  exact zero_div _

lemma vdqMax_mono {v1 v2 : ℝ} (h : v1 ≤ v2) (p : MotorParams)
    (hmod : 0 ≤ p.modulation_limit) : vdqMax v1 p ≤ vdqMax v2 p := by
  unfold vdqMax
  apply mul_le_mul_of_nonneg_right _ hmod
  exact mul_le_mul_of_nonneg_right (clampV_mono h) (by positivity)

lemma iqRadius_mono {a b : ℝ} (h : a ≤ b) (rotor_vel : ℝ) (p : MotorParams) :
    iqRadius a rotor_vel p ≤ iqRadius b rotor_vel p := by
  unfold iqRadius
  exact div_le_div_of_nonneg_right h (Real.sqrt_nonneg _)

/-- When the lower bound comes out tagged power-limited, its value is the
bottom of the voltage circle, `iq_center - iq_radius`. -/
lemma iqLowerFinal_power_val (vdq_max rotor_vel : ℝ) (p : MotorParams)
    (h : (iqLowerFinal vdq_max rotor_vel p).2 = kSimMotorLimitPower) :
    (iqLowerFinal vdq_max rotor_vel p).1 =
      iqCenter rotor_vel p - iqRadius vdq_max rotor_vel p := by
  unfold iqLowerFinal iqLowerPow at h ⊢
  split_ifs at h ⊢
  all_goals simp_all

/-- When the upper bound comes out tagged power-limited, its value is the
top of the voltage circle, `iq_center + iq_radius`. -/
lemma iqUpperFinal_power_val (vdq_max rotor_vel : ℝ) (p : MotorParams)
    (h : (iqUpperFinal vdq_max rotor_vel p).2 = kSimMotorLimitPower) :
    (iqUpperFinal vdq_max rotor_vel p).1 =
      iqCenter rotor_vel p + iqRadius vdq_max rotor_vel p := by
  unfold iqUpperFinal iqUpperPow at h ⊢
  split_ifs at h ⊢
  all_goals simp_all

lemma vdqMax_nonneg (voltage : ℝ) (p : MotorParams)
    (hmod : 0 ≤ p.modulation_limit) : 0 ≤ vdqMax voltage p :=
  mul_nonneg (mul_nonneg (clampV_nonneg _) (by positivity)) hmod

/-- Saturation at the bottom of the interval: once `cos_idq ≤ -1`, the
saturated value is exactly `-1`. -/
lemma cosIdqSat_eq_neg_one_of_le {vdq_max : ℝ} {p : MotorParams}
    (h : cosIdq vdq_max 0 p ≤ -1) : cosIdqSat vdq_max 0 p = -1 := by
  unfold cosIdqSat Saturate
  rw [max_eq_right h, min_eq_left (by norm_num)]

/-- At zero rotor speed the final upper quadrature bound never exceeds the
phase-current limit: either the phase step fires and pins it to
`i_phase_lim * sin(theta) ≤ i_phase_lim`, or the step is inert because the
voltage circle already fits inside the phase-current circle. -/
lemma iqUpperFinal_le_ip_zero_vel (vdq_max : ℝ) (p : MotorParams)
    (hRs : 0 < p.Rs) (hlam : 0 < p.flux_linkage)
    (hip : 0 < p.phase_current_cmd_limit) :
    (iqUpperFinal vdq_max 0 p).1 ≤ p.phase_current_cmd_limit := by
  have hsin1 : p.phase_current_cmd_limit *
      Real.sin (max (thetaDelta vdq_max 0 p) (0.5 * mPi)) ≤
      p.phase_current_cmd_limit := by
    calc p.phase_current_cmd_limit * Real.sin (max (thetaDelta vdq_max 0 p) (0.5 * mPi)) ≤
        p.phase_current_cmd_limit * 1 :=
          mul_le_mul_of_nonneg_left (Real.sin_le_one _) hip.le
      _ = p.phase_current_cmd_limit := mul_one _
  unfold iqUpperFinal
  rw [thetaUpperAngle_zero_vel, idCenter_zero]
  split_ifs with hg
  · dsimp only
    exact hsin1
  · rcases not_and_or.mp hg with hg1 | hg2
    · have hcos : Real.cos (max (thetaDelta vdq_max 0 p) (0.5 * mPi)) ≤ 0 := by
        by_contra hc
        push_neg at hc
        exact hg1 (mul_pos hip hc)
      have hrle := iqRadius_le_ip_of_sat_nonpos vdq_max p hRs hlam hip
        (sat_nonpos_of_cos_phiZero_nonpos vdq_max p hcos)
      rw [iqUpperPow_zero_vel]
      split_ifs with hu
      · dsimp only
        exact hrle
      · push_neg at hu
        dsimp only
        exact le_trans hu hrle
    · push_neg at hg2
      exact le_trans hg2 hsin1

/-- At zero rotor speed the final lower quadrature bound never falls below
the negated phase-current limit. -/
lemma neg_ip_le_iqLowerFinal_zero_vel (vdq_max : ℝ) (p : MotorParams)
    (hRs : 0 < p.Rs) (hlam : 0 < p.flux_linkage)
    (hip : 0 < p.phase_current_cmd_limit) :
    -p.phase_current_cmd_limit ≤ (iqLowerFinal vdq_max 0 p).1 := by
  have hsin1 : p.phase_current_cmd_limit *
      Real.sin (max (thetaDelta vdq_max 0 p) (0.5 * mPi)) ≤
      p.phase_current_cmd_limit := by
    calc p.phase_current_cmd_limit * Real.sin (max (thetaDelta vdq_max 0 p) (0.5 * mPi)) ≤
        p.phase_current_cmd_limit * 1 :=
          mul_le_mul_of_nonneg_left (Real.sin_le_one _) hip.le
      _ = p.phase_current_cmd_limit := mul_one _
  unfold iqLowerFinal
  rw [thetaLowerAngle_zero_vel, idCenter_zero, Real.cos_neg, Real.sin_neg]
  split_ifs with hg
  · dsimp only
    rw [mul_neg]
    linarith
  · rcases not_and_or.mp hg with hg1 | hg2
    · have hcos : Real.cos (max (thetaDelta vdq_max 0 p) (0.5 * mPi)) ≤ 0 := by
        by_contra hc
        push_neg at hc
        exact hg1 (mul_pos hip hc)
      have hrle := iqRadius_le_ip_of_sat_nonpos vdq_max p hRs hlam hip
        (sat_nonpos_of_cos_phiZero_nonpos vdq_max p hcos)
      rw [iqLowerPow_zero_vel]
      split_ifs with hl
      · dsimp only
        linarith
      · push_neg at hl
        dsimp only
        linarith
    · push_neg at hg2
      rw [mul_neg] at hg2
      linarith

/-- At zero rotor speed, when the bound left by the hard command limit and
the voltage circle still exceeds the phase-current limit, the upper
phase-current step fires: the guard holds because `cos(0.5 * M_PI) > 0`
(double `M_PI`), and the bound is retagged and pinned to
`i_phase_lim * sin(theta)` with `sin(theta) ∈ [sin(0.5 * M_PI), 1]`. -/
lemma iqUpperFinal_fires_zero_vel (vdq_max : ℝ) (p : MotorParams)
    (hRs : 0 < p.Rs) (hlam : 0 < p.flux_linkage)
    (hip : 0 < p.phase_current_cmd_limit)
    (hB : p.phase_current_cmd_limit < (iqUpperPow vdq_max 0 p).1) :
    iqUpperFinal vdq_max 0 p =
      (p.phase_current_cmd_limit * Real.sin (thetaUpperAngle vdq_max 0 p),
        kSimMotorLimitPhaseCurrent) ∧
    p.phase_current_cmd_limit * Real.sin (0.5 * mPi) ≤
      p.phase_current_cmd_limit * Real.sin (thetaUpperAngle vdq_max 0 p) := by
  have hipr : p.phase_current_cmd_limit < iqRadius vdq_max 0 p := by
    rw [iqUpperPow_zero_vel] at hB
    split_ifs at hB with hu
    · exact hB
    · push_neg at hu
      exact lt_of_lt_of_le hB hu
  have hsat := sat_pos_of_ip_lt_iqRadius vdq_max p hRs hlam hip hipr
  have hδ : thetaDelta vdq_max 0 p < Real.pi / 2 :=
    Real.arccos_lt_pi_div_two.mpr hsat
  have hφlt : max (thetaDelta vdq_max 0 p) (0.5 * mPi) < Real.pi / 2 :=
    max_lt hδ half_mPi_lt_half_pi
  have hcos := cos_phiZero_pos_of_sat_pos vdq_max p hsat
  have hsin1 : p.phase_current_cmd_limit *
      Real.sin (max (thetaDelta vdq_max 0 p) (0.5 * mPi)) ≤
      p.phase_current_cmd_limit := by
    calc p.phase_current_cmd_limit * Real.sin (max (thetaDelta vdq_max 0 p) (0.5 * mPi)) ≤
        p.phase_current_cmd_limit * 1 :=
          mul_le_mul_of_nonneg_left (Real.sin_le_one _) hip.le
      _ = p.phase_current_cmd_limit := mul_one _
  have hφeq := thetaUpperAngle_zero_vel vdq_max p
  have hcond1 : idCenter 0 p <
      p.phase_current_cmd_limit * Real.cos (thetaUpperAngle vdq_max 0 p) := by
    rw [idCenter_zero, hφeq]
    exact mul_pos hip hcos
  have hcond2 : p.phase_current_cmd_limit * Real.sin (thetaUpperAngle vdq_max 0 p) <
      (iqUpperPow vdq_max 0 p).1 := by
    rw [hφeq]
    exact lt_of_le_of_lt hsin1 hB
  constructor
  · unfold iqUpperFinal
    rw [if_pos ⟨hcond1, hcond2⟩]
  · rw [hφeq]
    exact mul_le_mul_of_nonneg_left
      (Real.sin_le_sin_of_le_of_le_pi_div_two
        (by linarith [half_mPi_pos, Real.pi_pos]) hφlt.le (le_max_right _ _))
      hip.le

/-- Mirror image of `iqUpperFinal_fires_zero_vel` for the lower bound. -/
lemma iqLowerFinal_fires_zero_vel (vdq_max : ℝ) (p : MotorParams)
    (hRs : 0 < p.Rs) (hlam : 0 < p.flux_linkage)
    (hip : 0 < p.phase_current_cmd_limit)
    (hB : (iqLowerPow vdq_max 0 p).1 < -p.phase_current_cmd_limit) :
    iqLowerFinal vdq_max 0 p =
      (p.phase_current_cmd_limit * Real.sin (thetaLowerAngle vdq_max 0 p),
        kSimMotorLimitPhaseCurrent) ∧
    p.phase_current_cmd_limit * Real.sin (thetaLowerAngle vdq_max 0 p) ≤
      -(p.phase_current_cmd_limit * Real.sin (0.5 * mPi)) := by
  have hipr : p.phase_current_cmd_limit < iqRadius vdq_max 0 p := by
    rw [iqLowerPow_zero_vel] at hB
    split_ifs at hB with hl
    · dsimp only at hB
      linarith
    · push_neg at hl
      dsimp only at hB
      linarith
  have hsat := sat_pos_of_ip_lt_iqRadius vdq_max p hRs hlam hip hipr
  have hδ : thetaDelta vdq_max 0 p < Real.pi / 2 :=
    Real.arccos_lt_pi_div_two.mpr hsat
  have hφlt : max (thetaDelta vdq_max 0 p) (0.5 * mPi) < Real.pi / 2 :=
    max_lt hδ half_mPi_lt_half_pi
  have hcos := cos_phiZero_pos_of_sat_pos vdq_max p hsat
  have hsin1 : p.phase_current_cmd_limit *
      Real.sin (max (thetaDelta vdq_max 0 p) (0.5 * mPi)) ≤
      p.phase_current_cmd_limit := by
    calc p.phase_current_cmd_limit * Real.sin (max (thetaDelta vdq_max 0 p) (0.5 * mPi)) ≤
        p.phase_current_cmd_limit * 1 :=
          mul_le_mul_of_nonneg_left (Real.sin_le_one _) hip.le
      _ = p.phase_current_cmd_limit := mul_one _
  have hφeq := thetaLowerAngle_zero_vel vdq_max p
  have hcond1 : idCenter 0 p <
      p.phase_current_cmd_limit * Real.cos (thetaLowerAngle vdq_max 0 p) := by
    rw [idCenter_zero, hφeq, Real.cos_neg]
    exact mul_pos hip hcos
  have hcond2 : p.phase_current_cmd_limit * Real.sin (thetaLowerAngle vdq_max 0 p) >
      (iqLowerPow vdq_max 0 p).1 := by
    rw [hφeq, Real.sin_neg, mul_neg]
    linarith
  constructor
  · unfold iqLowerFinal
    rw [if_pos ⟨hcond1, hcond2⟩]
  · rw [hφeq, Real.sin_neg, mul_neg, neg_le_neg_iff]
    exact mul_le_mul_of_nonneg_left
      (Real.sin_le_sin_of_le_of_le_pi_div_two
        (by linarith [half_mPi_pos, Real.pi_pos]) hφlt.le (le_max_right _ _))
      hip.le

/-- Claim C2: at zero rotor speed (non-salient machine, positive `Rs`,
`lambda` and `i_phase_lim`, nonnegative modulation limit) the phase-current
feasibility step limits the returned quadrature band to
`[-i_phase_lim, i_phase_lim]`: the final bounds always lie inside that
interval, and whenever the hard command limits together with the voltage
circle would still allow a bound beyond `±i_phase_lim`, the step fires
(its guard holds because `cos(0.5 * M_PI) > 0` for the double `M_PI`),
retags that bound phase-current-limited and pins it to
`i_phase_lim * sin(theta)`, which lies between `i_phase_lim * sin(0.5 * M_PI)`
and `i_phase_lim` — IEEE evaluation of the sine rounds it to exactly
`±i_phase_lim`, the relative gap being below `2e-33`. -/
theorem C2_zero_speed_phase_current_limit (voltage : ℝ) (p : MotorParams)
    (hRs : 0 < p.Rs) (hlam : 0 < p.flux_linkage)
    (hip : 0 < p.phase_current_cmd_limit) (hmod : 0 ≤ p.modulation_limit) :
    (-p.phase_current_cmd_limit ≤ (iqLowerFinal (vdqMax voltage p) 0 p).1 ∧
      (iqUpperFinal (vdqMax voltage p) 0 p).1 ≤ p.phase_current_cmd_limit) ∧
    (p.phase_current_cmd_limit < (iqUpperPow (vdqMax voltage p) 0 p).1 →
      (CalcTorqueLimits voltage 0 p).upper_constraint = kSimMotorLimitPhaseCurrent ∧
      (iqUpperFinal (vdqMax voltage p) 0 p).1 =
        p.phase_current_cmd_limit * Real.sin (thetaUpperAngle (vdqMax voltage p) 0 p) ∧
      p.phase_current_cmd_limit * Real.sin (0.5 * mPi) ≤
        (iqUpperFinal (vdqMax voltage p) 0 p).1) ∧
    ((iqLowerPow (vdqMax voltage p) 0 p).1 < -p.phase_current_cmd_limit →
      (CalcTorqueLimits voltage 0 p).lower_constraint = kSimMotorLimitPhaseCurrent ∧
      (iqLowerFinal (vdqMax voltage p) 0 p).1 =
        p.phase_current_cmd_limit * Real.sin (thetaLowerAngle (vdqMax voltage p) 0 p) ∧
      (iqLowerFinal (vdqMax voltage p) 0 p).1 ≤
        -(p.phase_current_cmd_limit * Real.sin (0.5 * mPi))) := by
  refine ⟨⟨neg_ip_le_iqLowerFinal_zero_vel _ p hRs hlam hip,
    iqUpperFinal_le_ip_zero_vel _ p hRs hlam hip⟩, fun hB => ?_, fun hB => ?_⟩
  · obtain ⟨heq, hlb⟩ := iqUpperFinal_fires_zero_vel _ p hRs hlam hip hB
    refine ⟨?_, ?_, ?_⟩
    · simp only [CalcTorqueLimits]
      rw [heq]
    · rw [heq]
    · rw [heq]
      exact hlb
  · obtain ⟨heq, hub⟩ := iqLowerFinal_fires_zero_vel _ p hRs hlam hip hB
    refine ⟨?_, ?_, ?_⟩
    · simp only [CalcTorqueLimits]
      rw [heq]
    · rw [heq]
    · rw [heq]
      exact hub

/-- Witness for C2 on `paramsBandFive` at voltage `10`: the hard upper limit
`5` and the voltage circle of radius `10` both exceed `i_phase_lim = 1`, the
returned upper bound is tagged phase-current-limited, and its value is at
most `i_phase_lim`. -/
theorem C2_witness :
    (0 : ℝ) < paramsBandFive.phase_current_cmd_limit ∧
    paramsBandFive.phase_current_cmd_limit <
      (iqUpperPow (vdqMax 10 paramsBandFive) 0 paramsBandFive).1 ∧
    (CalcTorqueLimits 10 0 paramsBandFive).upper_constraint =
      kSimMotorLimitPhaseCurrent ∧
    (iqUpperFinal (vdqMax 10 paramsBandFive) 0 paramsBandFive).1 ≤
      paramsBandFive.phase_current_cmd_limit := by
  have hRs : (0 : ℝ) < paramsBandFive.Rs := by norm_num [paramsBandFive, paramsZero]
  have hlam : (0 : ℝ) < paramsBandFive.flux_linkage := by
    norm_num [paramsBandFive, paramsZero]
  have hip : (0 : ℝ) < paramsBandFive.phase_current_cmd_limit := by
    norm_num [paramsBandFive, paramsZero]
  have hmod : (0 : ℝ) ≤ paramsBandFive.modulation_limit := by
    rw [paramsBandFive]
    exact Real.sqrt_nonneg 3
  have hvdq : vdqMax 10 paramsBandFive = 10 :=
    vdqMax_sqrt3 10 (by norm_num) paramsBandFive rfl
  have hr : iqRadius (vdqMax 10 paramsBandFive) 0 paramsBandFive = 10 := by
    rw [hvdq, iqRadius_zero_vel _ _ (by norm_num [paramsBandFive, paramsZero])]
    norm_num [paramsBandFive, paramsZero]
  have hupow : iqUpperPow (vdqMax 10 paramsBandFive) 0 paramsBandFive =
      (5, kSimMotorLimitPhaseCurrent) := by
    rw [iqUpperPow_zero_vel, hr, if_neg]
    · norm_num [paramsBandFive, paramsZero]
    · norm_num [paramsBandFive, paramsZero]
  have hBlt : paramsBandFive.phase_current_cmd_limit <
      (iqUpperPow (vdqMax 10 paramsBandFive) 0 paramsBandFive).1 := by
    rw [hupow]
    norm_num [paramsBandFive, paramsZero]
  have H := C2_zero_speed_phase_current_limit 10 paramsBandFive hRs hlam hip hmod
  exact ⟨hip, hBlt, (H.2.1 hBlt).1, H.1.2⟩

/-- Claim C3 (amended): at `rotor_speed = 0`, for a physically valid
parameter set (nonnegative phase-current limit, flux linkage, pole-pair
count and modulation limit) whose hard quadrature command band contains
zero (`iq_cmd_lower_limit ≤ 0 ≤ iq_cmd_upper_limit`), `CalcTorqueLimits`
returns `lower_limit ≤ upper_limit`: every candidate lower bound (hard
limit, circle bottom, or fired phase step with `sin(theta) ≤ 0`) is
nonpositive and every candidate upper bound is nonnegative.  As stated over
all valid parameter sets the claim is false — a hard band strictly above
the voltage circle crosses (the counterexample), a hard band strictly below
zero is crossed by the firing phase step, and at nonzero speed the phase
step can raise the lower bound past the upper one even with zero inside
the band. -/
theorem C3_lower_le_upper_zero_speed (voltage : ℝ) (p : MotorParams)
    (hip : 0 ≤ p.phase_current_cmd_limit)
    (hlam : 0 ≤ p.flux_linkage) (hnpp : 0 ≤ (p.num_pole_pairs : ℝ))
    (hmod : 0 ≤ p.modulation_limit)
    (hl : p.iq_cmd_lower_limit ≤ 0) (hu : 0 ≤ p.iq_cmd_upper_limit) :
    (CalcTorqueLimits voltage 0 p).lower_limit ≤
      (CalcTorqueLimits voltage 0 p).upper_limit := by
  have hr0 : 0 ≤ iqRadius (vdqMax voltage p) 0 p := by
    unfold iqRadius
    exact div_nonneg (vdqMax_nonneg voltage p hmod) (Real.sqrt_nonneg _)
  have hK : 0 ≤ 1.5 * (p.num_pole_pairs : ℝ) * p.flux_linkage :=
    mul_nonneg (mul_nonneg (by norm_num) hnpp) hlam
  have hsin := sin_phiZero_nonneg (vdqMax voltage p) p
  have hLo : (iqLowerFinal (vdqMax voltage p) 0 p).1 ≤ 0 := by
    unfold iqLowerFinal
    rw [thetaLowerAngle_zero_vel, Real.sin_neg]
    split_ifs with hg
    · dsimp only
      rw [mul_neg]
      have hnn : 0 ≤ p.phase_current_cmd_limit *
          Real.sin (max (thetaDelta (vdqMax voltage p) 0 p) (0.5 * mPi)) :=
        mul_nonneg hip hsin
      linarith
    · rw [iqLowerPow_zero_vel]
      split_ifs with h1
      · dsimp only
        linarith
      · dsimp only
        exact hl
  have hUp : 0 ≤ (iqUpperFinal (vdqMax voltage p) 0 p).1 := by
    unfold iqUpperFinal
    rw [thetaUpperAngle_zero_vel]
    split_ifs with hg
    · dsimp only
      exact mul_nonneg hip hsin
    · rw [iqUpperPow_zero_vel]
      split_ifs with h1
      · dsimp only
        exact hr0
      · dsimp only
        exact hu
  simp only [CalcTorqueLimits]
  apply mul_le_mul_of_nonneg_left _ hK
  linarith

/-- Witness for the amended C3 on `paramsBandFive` at zero voltage. -/
theorem C3_witness :
    paramsBandFive.iq_cmd_lower_limit ≤ 0 ∧
    (0 : ℝ) ≤ paramsBandFive.iq_cmd_upper_limit ∧
    (CalcTorqueLimits 0 0 paramsBandFive).lower_limit ≤
      (CalcTorqueLimits 0 0 paramsBandFive).upper_limit :=
  ⟨by norm_num [paramsBandFive, paramsZero],
    by norm_num [paramsBandFive, paramsZero],
    C3_lower_le_upper_zero_speed 0 paramsBandFive
      (by norm_num [paramsBandFive, paramsZero])
      (by norm_num [paramsBandFive, paramsZero])
      (by norm_num [paramsBandFive, paramsZero])
      (by rw [paramsBandFive]; exact Real.sqrt_nonneg 3)
      (by norm_num [paramsBandFive, paramsZero])
      (by norm_num [paramsBandFive, paramsZero])⟩

/-- Counterexample to Claim C3 as stated: `paramsBandTen` is physically valid
(non-salient, positive `Rs`, `lambda`, `npp`, `modulation_limit` and
`i_phase_lim`, hard limits `10 ≤ 10`), yet at voltage `0` and zero rotor
speed `CalcTorqueLimits` returns `lower_limit = 15 > 0 = upper_limit`: the
upper bound is pulled down to the voltage circle (radius `0`) while the hard
lower command limit `10` stays above it (the phase-current step stays inert
here: the arccosine argument saturates at `-1`, so the candidate angles are
`±pi` and the guards compare `0 < i_phase_lim * cos(pi) < 0`). -/
theorem C3_counterexample :
    paramsBandTen.Ld = paramsBandTen.Lq ∧
    paramsBandTen.iq_cmd_lower_limit ≤ paramsBandTen.iq_cmd_upper_limit ∧
    0 < paramsBandTen.phase_current_cmd_limit ∧
    0 < paramsBandTen.Rs ∧ 0 < paramsBandTen.flux_linkage ∧
    0 < (paramsBandTen.num_pole_pairs : ℝ) ∧
    0 < paramsBandTen.modulation_limit ∧
    (CalcTorqueLimits 0 0 paramsBandTen).lower_limit = 15 ∧
    (CalcTorqueLimits 0 0 paramsBandTen).upper_limit = 0 ∧
    ¬ (CalcTorqueLimits 0 0 paramsBandTen).lower_limit ≤
        (CalcTorqueLimits 0 0 paramsBandTen).upper_limit := by
  have hr : iqRadius (vdqMax 0 paramsBandTen) 0 paramsBandTen = 0 :=
    iqRadius_zero_voltage 0 paramsBandTen
  have hc : iqCenter 0 paramsBandTen = 0 := iqCenter_zero _
  have hip : (0 : ℝ) ≤ paramsBandTen.phase_current_cmd_limit := by
    norm_num [paramsBandTen, paramsZero]
  have hsat : cosIdqSat (vdqMax 0 paramsBandTen) 0 paramsBandTen = -1 := by
    apply cosIdqSat_eq_neg_one_of_le
    rw [vdqMax_zero, cosIdq_zero_vel _ _ (by norm_num [paramsBandTen, paramsZero])]
    norm_num [paramsBandTen, paramsZero]
  have hoff := phase_steps_off_of_sat_bottom _ _ hip hsat
  have hlpow : iqLowerPow (vdqMax 0 paramsBandTen) 0 paramsBandTen =
      (10, kSimMotorLimitPhaseCurrent) := by
    unfold iqLowerPow
    rw [hc, hr, if_neg]
    · norm_num [paramsBandTen, paramsZero]
    · norm_num [paramsBandTen, paramsZero]
  have hupow : iqUpperPow (vdqMax 0 paramsBandTen) 0 paramsBandTen =
      (0, kSimMotorLimitPower) := by
    unfold iqUpperPow
    rw [hc, hr, if_pos]
    · norm_num
    · norm_num [paramsBandTen, paramsZero]
  have hlow : (CalcTorqueLimits 0 0 paramsBandTen).lower_limit = 15 := by
    unfold CalcTorqueLimits
    rw [hoff.1, hlpow]
    norm_num [paramsBandTen, paramsZero]
  have hup : (CalcTorqueLimits 0 0 paramsBandTen).upper_limit = 0 := by
    unfold CalcTorqueLimits
    rw [hoff.2, hupow]
    norm_num
  refine ⟨by norm_num [paramsBandTen, paramsZero],
    by norm_num [paramsBandTen, paramsZero],
    by norm_num [paramsBandTen, paramsZero],
    by norm_num [paramsBandTen, paramsZero],
    by norm_num [paramsBandTen, paramsZero],
    by norm_num [paramsBandTen, paramsZero],
    by rw [paramsBandTen]; exact Real.sqrt_pos.mpr (by norm_num),
    hlow, hup, ?_⟩
  rw [hlow, hup]
  norm_num

/-- Claim C6: `CalcTorqueLimits` is monotonic in voltage on the
voltage/power-limited bounds: for a valid parameter set (nonnegative flux
linkage, pole-pair count and modulation limit) and `v1 ≤ v2`, whenever a
bound is tagged power-limited at both voltages, raising the voltage lowers
the lower torque limit and raises the upper torque limit (so the band at `v2`
contains the band at `v1` on those bounds); equivalently, decreasing the
voltage — including the clamp of negative inputs to zero — never widens the
power-limited band. -/
theorem C6_voltage_monotone_power_limited (rotor_vel v1 v2 : ℝ) (p : MotorParams)
    (hlam : 0 ≤ p.flux_linkage) (hnpp : 0 ≤ (p.num_pole_pairs : ℝ))
    (hmod : 0 ≤ p.modulation_limit) (h12 : v1 ≤ v2) :
    ((CalcTorqueLimits v1 rotor_vel p).lower_constraint = kSimMotorLimitPower →
      (CalcTorqueLimits v2 rotor_vel p).lower_constraint = kSimMotorLimitPower →
      (CalcTorqueLimits v2 rotor_vel p).lower_limit ≤
        (CalcTorqueLimits v1 rotor_vel p).lower_limit) ∧
    ((CalcTorqueLimits v1 rotor_vel p).upper_constraint = kSimMotorLimitPower →
      (CalcTorqueLimits v2 rotor_vel p).upper_constraint = kSimMotorLimitPower →
      (CalcTorqueLimits v1 rotor_vel p).upper_limit ≤
        (CalcTorqueLimits v2 rotor_vel p).upper_limit) := by
  have hK : 0 ≤ 1.5 * (p.num_pole_pairs : ℝ) * p.flux_linkage :=
    mul_nonneg (mul_nonneg (by norm_num) hnpp) hlam
  have hrm : iqRadius (vdqMax v1 p) rotor_vel p ≤ iqRadius (vdqMax v2 p) rotor_vel p :=
    iqRadius_mono (vdqMax_mono h12 p hmod) rotor_vel p
  constructor
  · intro h1 h2
    simp only [CalcTorqueLimits] at h1 h2 ⊢
    rw [iqLowerFinal_power_val _ _ _ h1, iqLowerFinal_power_val _ _ _ h2]
    apply mul_le_mul_of_nonneg_left _ hK
    linarith
  · intro h1 h2
    simp only [CalcTorqueLimits] at h1 h2 ⊢
    rw [iqUpperFinal_power_val _ _ _ h1, iqUpperFinal_power_val _ _ _ h2]
    apply mul_le_mul_of_nonneg_left _ hK
    linarith

/-- Witness for C6 on `paramsWideBand` at zero rotor speed, `v1 = 0`,
`v2 = 1`: both lower bounds are power-limited and the lower torque limit at
voltage `1` is at most the one at voltage `0`. -/
theorem C6_witness :
    (0 : ℝ) ≤ paramsWideBand.flux_linkage ∧ (0 : ℝ) ≤ 1 ∧
    (CalcTorqueLimits 1 0 paramsWideBand).lower_limit ≤
      (CalcTorqueLimits 0 0 paramsWideBand).lower_limit := by
  have hip : (0 : ℝ) ≤ paramsWideBand.phase_current_cmd_limit := by
    norm_num [paramsWideBand, paramsZero]
  have hr0 : iqRadius (vdqMax 0 paramsWideBand) 0 paramsWideBand = 0 :=
    iqRadius_zero_voltage 0 paramsWideBand
  have hvdq1 : vdqMax 1 paramsWideBand = 1 :=
    vdqMax_sqrt3 1 (by norm_num) paramsWideBand rfl
  have hr1 : iqRadius (vdqMax 1 paramsWideBand) 0 paramsWideBand = 1 := by
    rw [hvdq1]
    unfold iqRadius
    rw [z2_zero_vel]
    norm_num [paramsWideBand, paramsZero]
  have hc : iqCenter 0 paramsWideBand = 0 := iqCenter_zero _
  have hsat0 : cosIdqSat (vdqMax 0 paramsWideBand) 0 paramsWideBand = -1 := by
    apply cosIdqSat_eq_neg_one_of_le
    rw [vdqMax_zero, cosIdq_zero_vel _ _ (by norm_num [paramsWideBand, paramsZero])]
    norm_num [paramsWideBand, paramsZero]
  have hsat1 : cosIdqSat (vdqMax 1 paramsWideBand) 0 paramsWideBand = -1 := by
    apply cosIdqSat_eq_neg_one_of_le
    rw [hvdq1, cosIdq_zero_vel _ _ (by norm_num [paramsWideBand, paramsZero])]
    norm_num [paramsWideBand, paramsZero]
  have htag0 : (CalcTorqueLimits 0 0 paramsWideBand).lower_constraint =
      kSimMotorLimitPower := by
    simp only [CalcTorqueLimits]
    rw [(phase_steps_off_of_sat_bottom _ _ hip hsat0).1]
    unfold iqLowerPow
    rw [hc, hr0, if_pos]
    norm_num [paramsWideBand, paramsZero]
  have htag1 : (CalcTorqueLimits 1 0 paramsWideBand).lower_constraint =
      kSimMotorLimitPower := by
    simp only [CalcTorqueLimits]
    rw [(phase_steps_off_of_sat_bottom _ _ hip hsat1).1]
    unfold iqLowerPow
    rw [hc, hr1, if_pos]
    norm_num [paramsWideBand, paramsZero]
  exact ⟨by norm_num [paramsWideBand, paramsZero], by norm_num,
    (C6_voltage_monotone_power_limited 0 0 1 paramsWideBand
      (by norm_num [paramsWideBand, paramsZero])
      (by norm_num [paramsWideBand, paramsZero])
      (by rw [paramsWideBand]; exact Real.sqrt_nonneg 3)
      (by norm_num)).1 htag0 htag1⟩

/-- Claim C7: `CalcMotorControllerLoss` is monotonically non-increasing in the
squared peak phase current and in the voltage separately, for nonnegative
`rds_on`, `specific_switching_loss`, `switching_frequency` and fixed-loss
coefficients, on nonnegative arguments. -/
theorem C7_controller_loss_monotone (p : MotorParams)
    (hrds : 0 ≤ p.rds_on) (hssl : 0 ≤ p.specific_switching_loss)
    (hfreq : 0 ≤ p.switching_frequency) (hsq : 0 ≤ p.fixed_loss_sq_coeff)
    (hlin : 0 ≤ p.fixed_loss_lin_coeff)
    (v1 v2 q1 q2 : ℝ) (hv1 : 0 ≤ v1) (hv12 : v1 ≤ v2)
    (hq1 : 0 ≤ q1) (hq12 : q1 ≤ q2) :
    CalcMotorControllerLoss v1 q2 p ≤ CalcMotorControllerLoss v1 q1 p ∧
    CalcMotorControllerLoss v2 q1 p ≤ CalcMotorControllerLoss v1 q1 p := by
  have hpi : (0 : ℝ) ≤ 3 * 2 / mPi := div_nonneg (by norm_num) mPi_pos.le
  constructor
  · have hcond : conductionLoss q2 p ≤ conductionLoss q1 p := by
      unfold conductionLoss
      rw [cppNeg3Div2_eq]
      nlinarith
    have hvar : variableSwitchingLossPerCycle v1 q2 p ≤
        variableSwitchingLossPerCycle v1 q1 p := by
      unfold variableSwitchingLossPerCycle
      apply neg_le_neg
      apply mul_le_mul_of_nonneg_right _ hssl
      exact mul_le_mul_of_nonneg_left (Real.sqrt_le_sqrt hq12)
        (mul_nonneg hpi hv1)
    unfold CalcMotorControllerLoss
    exact add_le_add hcond
      (mul_le_mul_of_nonneg_left (add_le_add hvar le_rfl) hfreq)
  · have hvar : variableSwitchingLossPerCycle v2 q1 p ≤
        variableSwitchingLossPerCycle v1 q1 p := by
      unfold variableSwitchingLossPerCycle
      apply neg_le_neg
      apply mul_le_mul_of_nonneg_right _ hssl
      exact mul_le_mul_of_nonneg_right
        (mul_le_mul_of_nonneg_left hv12 hpi) (Real.sqrt_nonneg q1)
    have hfix : fixedSwitchingLossPerCycle v2 p ≤ fixedSwitchingLossPerCycle v1 p := by
      unfold fixedSwitchingLossPerCycle
      have hsqr : v1 * v1 ≤ v2 * v2 := mul_self_le_mul_self hv1 hv12
      nlinarith [mul_le_mul_of_nonneg_left hsqr hsq,
        mul_le_mul_of_nonneg_left hv12 hlin]
    unfold CalcMotorControllerLoss
    exact add_le_add le_rfl
      (mul_le_mul_of_nonneg_left (add_le_add hvar hfix) hfreq)

/-- Witness for C7 on `paramsUnitR` with `v1 = 0`, `v2 = 1`, `q1 = 0`,
`q2 = 1`. -/
theorem C7_witness :
    (0 : ℝ) ≤ paramsUnitR.rds_on ∧
    (CalcMotorControllerLoss 0 1 paramsUnitR ≤ CalcMotorControllerLoss 0 0 paramsUnitR ∧
      CalcMotorControllerLoss 1 0 paramsUnitR ≤ CalcMotorControllerLoss 0 0 paramsUnitR) :=
  ⟨by norm_num [paramsUnitR, paramsZero],
    C7_controller_loss_monotone paramsUnitR
      (by norm_num [paramsUnitR, paramsZero])
      (by norm_num [paramsUnitR, paramsZero])
      (by norm_num [paramsUnitR, paramsZero])
      (by norm_num [paramsUnitR, paramsZero])
      (by norm_num [paramsUnitR, paramsZero])
      0 1 0 1 (by norm_num) (by norm_num) (by norm_num) (by norm_num)⟩
